import Mathlib

/-
Verification of the piedpiper session-orchestration backend.

Shallow embedding of the Python sources:
  backend/src/piedpiper/models/state.py      (data model)
  backend/src/piedpiper/models/cost.py       (budget config, pricing)
  backend/src/piedpiper/infra/cost.py        (CostController)
  backend/src/piedpiper/infra/redis/search.py (HybridKnowledgeBase)
  backend/src/piedpiper/infra/redis/embeddings.py (EmbeddingService costs)
  backend/src/piedpiper/agents/arbiter.py    (ArbiterAgent)
  backend/src/piedpiper/agents/worker.py     (WorkerAgent.execute_subtask)
  backend/src/piedpiper/workflow/nodes.py    (check_progress, hybrid_search)
  backend/src/piedpiper/workflow/graph.py    (conditional routing)
  backend/src/piedpiper/api/events.py        (EventBus)

Python floats are modelled as rationals, machine dicts as insertion-ordered
association lists, and external effects (LLM calls, sandbox execution,
Redis round-trips) as explicit parameters.
-/

set_option maxHeartbeats 1000000

namespace PiedPiper

/-! ## Data model (models/state.py) -/

/-- One chat message of a worker's conversation history. -/
structure ChatMessage where
  role : String
  content : String
deriving DecidableEq, Repr

/-- WorkerAction from models/state.py (timestamp omitted: wall-clock only). -/
structure WorkerAction where
  action_type : String
  description : String
  result : Option String := none
  error : Option String := none
deriving DecidableEq, Repr

/-- The structured output dict set by WorkerAgent.execute_subtask on success:
keys code/output/thought, plus preview_urls when any were collected. -/
structure WorkerOutput where
  code : String
  output : String
  thought : String
  preview_urls : List (Nat × String) := []
deriving DecidableEq, Repr

/-- WorkerState from models/state.py. Floats become rationals; the config
and sandbox handle are irrelevant to the verified properties and omitted. -/
structure WorkerState where
  worker_id : String := ""
  subtask : String := ""
  conversation_history : List ChatMessage := []
  action_history : List WorkerAction := []
  recent_errors : List String := []
  llm_confidence : ℚ := 1
  minutes_without_progress : ℚ := 0
  output : Option WorkerOutput := none
  completed : Bool := false
  stuck : Bool := false
deriving DecidableEq, Repr

/-- CostEntry from models/state.py (timestamp omitted). -/
structure CostEntry where
  agent_type : String
  model : String
  tokens_in : Nat
  tokens_out : Nat
  cost_usd : ℚ
deriving DecidableEq, Repr

/-- CostTracker from models/state.py. -/
structure CostTracker where
  entries : List CostEntry := []
  spent_workers : ℚ := 0
  spent_expert : ℚ := 0
  spent_browserbase : ℚ := 0
  spent_embeddings : ℚ := 0
  spent_redis : ℚ := 0
deriving DecidableEq, Repr

/-- Session phases from models/state.py. -/
inductive Phase
  | init
  | assign_task
  | worker_execute
  | check_progress
  | arbiter
  | hybrid_search
  | human_review
  | expert_answer
  | browserbase_test
  | generate_report
  | expert_learn
  | completed
  | failed
deriving DecidableEq, Repr

/-! ## Budget configuration and pricing (models/cost.py) -/

/-- BudgetConfig with its source defaults. -/
structure BudgetConfig where
  total_budget_usd : ℚ := 50
  worker_cost_limit : ℚ := 30
  expert_cost_limit : ℚ := 15
  browserbase_limit : ℚ := 3
  buffer : ℚ := 2
deriving DecidableEq, Repr

/-- The MODEL_COSTS table: model id to (input, output) price per million tokens. -/
def MODEL_COSTS : List (String × ℚ × ℚ) :=
  [ ("microsoft/Phi-4-mini-instruct", 1/10, 1/10)
  , ("meta-llama/Llama-3.1-8B-Instruct", 1/5, 1/5)
  , ("meta-llama/Llama-3.3-70B-Instruct", 4/5, 4/5)
  , ("Qwen/Qwen2.5-14B-Instruct", 3/10, 3/10)
  , ("OpenPipe/Qwen3-14B-Instruct", 3/10, 3/10)
  , ("deepseek-ai/DeepSeek-R1-0528", 1, 1)
  , ("deepseek-ai/DeepSeek-V3-0324", 4/5, 4/5)
  , ("deepseek-ai/DeepSeek-V3.1", 4/5, 4/5)
  , ("Qwen/Qwen3-235B-A22B-Thinking-2507", 6/5, 6/5)
  , ("Qwen/Qwen3-235B-A22B-Instruct-2507", 1, 1)
  , ("Qwen/Qwen3-Coder-480B-A35B-Instruct", 3/2, 3/2)
  , ("moonshotai/Kimi-K2-Instruct", 3/5, 3/5)
  , ("moonshotai/Kimi-K2-Instruct-0905", 3/5, 3/5)
  , ("openai/gpt-oss-20b", 3/10, 3/10)
  , ("openai/gpt-oss-120b", 1, 1)
  , ("Qwen/Qwen3-30B-A3B-Instruct-2507", 3/10, 3/10)
  , ("zai-org/GLM-4.5", 4/5, 4/5)
  , ("meta-llama/Llama-4-Scout-17B-16E-Instruct", 2/5, 2/5) ]

/-- MODEL_COSTS.get(model, (1.00, 1.00)). -/
def modelRates (model : String) : ℚ × ℚ :=
  ((MODEL_COSTS.find? (fun p => p.1 == model)).map Prod.snd).getD (1, 1)

/-- calculate_cost from models/cost.py. -/
def calculate_cost (model : String) (tokens_in tokens_out : Nat) : ℚ :=
  ((tokens_in : ℚ) * (modelRates model).1 + (tokens_out : ℚ) * (modelRates model).2) / 1000000

/-! ## CostController (infra/cost.py) -/

/-- CostController.track_llm_call: append a ledger entry, then bump the
matching category sum (agent types outside the four branches fall through). -/
def track_llm_call (t : CostTracker) (agent_type model : String)
    (tokens_in tokens_out : Nat) : CostTracker :=
  let cost := calculate_cost model tokens_in tokens_out
  let entry : CostEntry :=
    { agent_type := agent_type, model := model, tokens_in := tokens_in,
      tokens_out := tokens_out, cost_usd := cost }
  let t1 := { t with entries := t.entries ++ [entry] }
  if agent_type = "workers" then { t1 with spent_workers := t1.spent_workers + cost }
  else if agent_type = "expert" then { t1 with spent_expert := t1.spent_expert + cost }
  else if agent_type = "browserbase" then
    { t1 with spent_browserbase := t1.spent_browserbase + cost }
  else if agent_type = "embeddings" then
    { t1 with spent_embeddings := t1.spent_embeddings + cost }
  else t1

/-- CostController.check_budget: returns (can_continue, message, remaining_usd). -/
def check_budget (budget : BudgetConfig) (t : CostTracker) : Bool × String × ℚ :=
  let total_spent := t.spent_workers + t.spent_expert + t.spent_browserbase
    + t.spent_embeddings + t.spent_redis
  let remaining := budget.total_budget_usd - total_spent
  if total_spent > budget.total_budget_usd then (false, "Total budget exceeded", 0)
  else if t.spent_expert > budget.expert_cost_limit then
    (false, "Expert budget depleted", remaining)
  else if t.spent_workers > budget.worker_cost_limit then
    (true, "WARNING: Worker budget nearly depleted", remaining)
  else if remaining < budget.buffer then
    (true, "WARNING: Approaching budget limit", remaining)
  else (true, "OK", remaining)

/-- EmbeddingService.get_cost_per_embedding: local sentence-transformers, $0. -/
def get_cost_per_embedding : ℚ := 0

/-- The cost bookkeeping hybrid_search_node performs: it adds the embedding
cost returned by search to spent_embeddings without appending a ledger entry. -/
def hybrid_search_cost_update (t : CostTracker) (embedding_cost : ℚ) : CostTracker :=
  { t with spent_embeddings := t.spent_embeddings + embedding_cost }

/-- A cost-recording operation of the controller or of the workflow nodes. -/
inductive CostOp
  | track (agent_type model : String) (tokens_in tokens_out : Nat)
  | hybridSearchEmbedCost
deriving DecidableEq, Repr

/-- Apply one cost-recording operation. hybrid_search_node records the cost
that HybridKnowledgeBase.search returned, which is get_cost_per_embedding. -/
def applyCostOp (t : CostTracker) : CostOp → CostTracker
  | CostOp.track a m ti to1 => track_llm_call t a m ti to1
  | CostOp.hybridSearchEmbedCost => hybrid_search_cost_update t get_cost_per_embedding

/-- Run a sequence of cost-recording operations from a fresh tracker. -/
def runCostOps (ops : List CostOp) : CostTracker := ops.foldl applyCostOp {}

/-- Sum of cost_usd over ledger entries recorded with a given agent_type. -/
def categorySumEntries (t : CostTracker) (agent_type : String) : ℚ :=
  ((t.entries.filter (fun e => e.agent_type == agent_type)).map
    (fun e => e.cost_usd)).sum

/-! ## Arbiter (agents/arbiter.py) -/

/-- Python list slicing l[-n:]. -/
def lastN {α : Type} (n : Nat) (l : List α) : List α := l.drop (l.length - n)

/-- Action signature with description truncated to n characters. -/
def actionSig (n : Nat) (a : WorkerAction) : String :=
  a.action_type ++ ":" ++ a.description.take n

/-- IssueType from models/queries.py. -/
inductive IssueType
  | documentation_gap
  | api_error
  | conceptual_block
  | bug_suspected
  | clarification_needed
deriving DecidableEq, Repr

/-- ArbiterAgent._detect_repetition. -/
def detect_repetition (w : WorkerState) : Bool :=
  if w.action_history.length < 5 then false
  else ((lastN 10 w.action_history).map (actionSig 50)).dedup.length < 3

/-- ArbiterAgent._detect_dead_end. -/
def detect_dead_end (w : WorkerState) : Bool :=
  if w.action_history.length < 3 then false
  else
    let recent := lastN 10 w.action_history
    if 5 ≤ (recent.filter (fun a => a.error.isSome)).length then true
    else if (recent.map (fun a => a.action_type)).dedup.length = 1 ∧ 5 ≤ recent.length
      then true
    else if 6 ≤ recent.length ∧ ((lastN 6 recent).map (actionSig 30)).dedup.length ≤ 2
      then true
    else false

/-- ArbiterAgent._classify_issue (signals passed positionally). -/
def classify_issue (error_loop repetition dead_end low_confidence time_stuck : Bool) :
    IssueType :=
  if error_loop && repetition then IssueType.bug_suspected
  else if error_loop then IssueType.api_error
  else if dead_end then IssueType.conceptual_block
  else if low_confidence && time_stuck then IssueType.clarification_needed
  else if time_stuck then IssueType.documentation_gap
  else IssueType.documentation_gap

/-- Indicator of a boolean signal, as Python uses bool values in arithmetic. -/
def signalValue (b : Bool) : ℚ := if b then 1 else 0

/-- ArbiterAgent.should_escalate: (escalate, issue_type, urgency_score). -/
def should_escalate (w : WorkerState) : Bool × IssueType × ℚ :=
  let time_stuck := decide (w.minutes_without_progress > 5)
  let error_loop := decide (w.recent_errors.length > 3)
  let low_confidence := decide (w.llm_confidence < 3/5)
  let repetition := detect_repetition w
  let dead_end := detect_dead_end w
  let urgency := signalValue time_stuck * (3/10) + signalValue error_loop * (1/4)
    + signalValue low_confidence * (1/5) + signalValue repetition * (3/20)
    + signalValue dead_end * (1/10)
  let esc := decide (urgency > 1/2) || (time_stuck && error_loop) || dead_end
  (esc, classify_issue error_loop repetition dead_end low_confidence time_stuck, urgency)

/-! ## Hybrid search (infra/redis/search.py) -/

/-- A hit as normalized by _vector_search / _keyword_search: a dict with id,
question and answer (vector hits also carry a score; rerank_fusion reads
only the id). -/
structure SearchHit where
  id : String
  question : String := ""
  answer : String := ""
  score : ℚ := 0
deriving DecidableEq, Repr

/-- A cached document as returned to the workflow, with the fused
relevance_score attached by search. -/
structure CachedDoc where
  id : String := ""
  question : String := ""
  answer : String := ""
  relevance_score : ℚ := 0
deriving DecidableEq, Repr

/-- Python dict assignment d[key] = d.get(key, 0) + inc on an
insertion-ordered association list: update the first occurrence in place,
or append the new key at the end. -/
def dict_upsert : List (String × ℚ) → String → ℚ → List (String × ℚ)
  | [], key, inc => [(key, inc)]
  | (k0, v0) :: rest, key, inc =>
    if k0 = key then (k0, v0 + inc) :: rest
    else (k0, v0) :: dict_upsert rest key inc

/-- One `for rank, hit in enumerate(hits)` pass of rerank_fusion, adding
1 / (k + rank) to each hit id's fused score. -/
def rrf_pass (k : ℚ) : List (String × ℚ) → List SearchHit → Nat → List (String × ℚ)
  | d, [], _ => d
  | d, h :: t, rank => rrf_pass k (dict_upsert d h.id (1 / (k + (rank : ℚ)))) t (rank + 1)

/-- Insert into a descending-by-score list, after any entry of equal score. -/
def insert_desc (x : String × ℚ) : List (String × ℚ) → List (String × ℚ)
  | [] => [x]
  | y :: ys => if y.2 < x.2 then x :: y :: ys else y :: insert_desc x ys

/-- Python sorted(items, key score, reverse) is a stable descending sort;
inserting each item in order after its equals computes exactly that. -/
def sort_desc (l : List (String × ℚ)) : List (String × ℚ) :=
  l.foldl (fun acc x => insert_desc x acc) []

/-- The fused_scores dict after both enumerate passes of rerank_fusion. -/
def fused_scores (vector_hits keyword_hits : List SearchHit) (k : ℚ) :
    List (String × ℚ) :=
  rrf_pass k (rrf_pass k [] vector_hits 0) keyword_hits 0

/-- HybridKnowledgeBase.rerank_fusion. -/
def rerank_fusion (vector_hits keyword_hits : List SearchHit) (k : ℚ) :
    List (String × ℚ) :=
  sort_desc (fused_scores vector_hits keyword_hits k)

/-- _vector_search / _keyword_search wrap the Redis call in try/except and
return an empty hit list on any backend failure. -/
def wrapped_backend_call (outcome : Except String (List SearchHit)) : List SearchHit :=
  match outcome with
  | Except.ok hits => hits
  | Except.error _ => []

/-- Attaching the fused score to a fetched document. -/
def attach_score (score : ℚ) (d : CachedDoc) : CachedDoc :=
  { d with relevance_score := score }

/-- HybridKnowledgeBase.search. The two Redis searches and the per-document
fetch are external effects, passed as outcome parameters; a document whose
fetch fails or returns nothing is skipped. The returned cost is the
embedding cost reported by the local embedding service. -/
def search (query : String) (vector_outcome keyword_outcome : Except String (List SearchHit))
    (fetch_doc : String → Option CachedDoc) (top_k : Nat) : List CachedDoc × ℚ :=
  if query.trim = "" then ([], 0)
  else
    let vector_results := wrapped_backend_call vector_outcome
    let keyword_results := wrapped_backend_call keyword_outcome
    let fused_items := rerank_fusion vector_results keyword_results 60
    let results := (fused_items.take top_k).filterMap
      (fun p => (fetch_doc p.1).map (attach_score p.2))
    (results, get_cost_per_embedding)

/-! ## Routing (workflow/graph.py) -/

/-- The slice of an expert-query dict that _route_after_search reads:
arbiter_node appends model_dump() dicts, hybrid_search_node adds the
cache_hit flag (absent means falsy) and the cache_results list. -/
structure ExpertQueryRec where
  question : String := ""
  worker_id : String := ""
  cache_hit : Bool := false
  cache_results : List CachedDoc := []
deriving DecidableEq, Repr

/-- The two labels _route_after_search can return. -/
inductive SearchRoute
  | cache_hit
  | cache_miss
deriving DecidableEq, Repr

/-- _route_after_search from workflow/graph.py. -/
def route_after_search (expert_queries : List ExpertQueryRec) : SearchRoute :=
  match expert_queries.getLast? with
  | none => SearchRoute.cache_miss
  | some q =>
    if q.cache_hit then
      match q.cache_results with
      | [] => SearchRoute.cache_miss
      | r :: _ =>
        if r.relevance_score > 7/10 then SearchRoute.cache_hit else SearchRoute.cache_miss
    else SearchRoute.cache_miss

/-- The conditional-edge map build_graph registers for hybrid_search. -/
def search_route_target : SearchRoute → Phase
  | SearchRoute.cache_hit => Phase.worker_execute
  | SearchRoute.cache_miss => Phase.human_review

/-! ## check_progress_node (workflow/nodes.py) -/

/-- The per-worker stuck marking performed by check_progress_node's loop. -/
def mark_stuck (w : WorkerState) : WorkerState :=
  if w.completed = false ∧ w.stuck = false then
    if w.minutes_without_progress ≥ 5 then { w with stuck := true }
    else if 3 ≤ w.recent_errors.length then { w with stuck := true }
    else w
  else w

/-- check_progress_node: if all workers completed go to browserbase_test,
otherwise mark stuck workers and go to arbiter when any is stuck. -/
def check_progress_node (workers : List WorkerState) : List WorkerState × Phase :=
  if workers.all (fun w => w.completed) then (workers, Phase.browserbase_test)
  else
    let ws := workers.map mark_stuck
    if ws.any (fun w => w.stuck) then (ws, Phase.arbiter)
    else (ws, Phase.worker_execute)

/-! ## Worker driver (agents/worker.py) -/

/-- The {thought, code, confidence} dict produced by _parse_llm_response. -/
structure ParsedResponse where
  thought : String := ""
  code : String := ""
  confidence : ℚ := 1/2
deriving DecidableEq, Repr

/-- Outcome of _execute_code_in_sandbox: (output, exit_code == 0). -/
structure SandboxResult where
  output : String
  success : Bool
deriving DecidableEq, Repr

/-- WorkerAgent.execute_subtask, non-raising path. The LLM response, its
parse and the sandbox outcome are external effects passed as parameters,
as is the preview-URL list collected on completion. -/
def execute_subtask (s : WorkerState) (llm_response : String) (parsed : ParsedResponse)
    (exec_result : SandboxResult) (preview_urls : List (Nat × String)) : WorkerState :=
  let s1 := { s with conversation_history := s.conversation_history
    ++ [({ role := "assistant", content := llm_response } : ChatMessage)] }
  let s2 := { s1 with action_history := s1.action_history
    ++ [({ action_type := "llm_plan",
           description := parsed.thought.take 200 } : WorkerAction)] }
  if parsed.code = "" then
    { s2 with llm_confidence := parsed.confidence,
              minutes_without_progress := s2.minutes_without_progress + 1/2 }
  else
    let output := exec_result.output
    let success := exec_result.success
    let code_action : WorkerAction :=
      { action_type := "code_execution",
        description := "Executed " ++ toString parsed.code.length ++ " chars of code",
        result := if success then some (output.take 500) else none,
        error := if success then none else some (output.take 500) }
    let s3 := { s2 with action_history := s2.action_history ++ [code_action] }
    let s4 := if success then s3
      else { s3 with recent_errors := lastN 5 (s3.recent_errors ++ [output.take 500]) }
    let s5 := { s4 with conversation_history := s4.conversation_history
      ++ [({ role := "user",
             content := (if success then "Code execution succeeded:\n"
               else "Code execution failed:\n") ++ output.take 1000 } : ChatMessage)] }
    let s6 := if success = true ∧ 1 ≤ s5.action_history.length then
        { s5 with completed := true,
                  output := some { code := parsed.code, output := output,
                                   thought := parsed.thought,
                                   preview_urls := preview_urls } }
      else s5
    { s6 with llm_confidence := parsed.confidence,
              minutes_without_progress := s6.minutes_without_progress + 1/2 }

/-- WorkerAgent.apply_expert_answer: the only code path that injects an
answer into a worker as guidance. It appends the guidance message and an
expert_guidance action, clears stuck, then runs one execute_subtask step
when the worker has a subtask. It is invoked only by expert_answer_node,
never on the hybrid_search cache-hit edge. -/
def apply_expert_answer (w : WorkerState) (answer : String) (llm_response : String)
    (parsed : ParsedResponse) (exec_result : SandboxResult)
    (preview_urls : List (Nat × String)) : WorkerState :=
  let w1 := { w with
    conversation_history := w.conversation_history
      ++ [({ role := "user",
             content := "Expert guidance: " ++ answer
               ++ "\n\nPlease continue with your task using this guidance." }
           : ChatMessage)],
    stuck := false }
  let w2 := { w1 with
    action_history := w1.action_history
      ++ [({ action_type := "expert_guidance",
             description := "Received guidance from expert agent" } : WorkerAction)] }
  if w2.subtask ≠ "" then execute_subtask w2 llm_response parsed exec_result preview_urls
  else w2

/-- worker_execute_node's per-worker body: a worker that is completed or
stuck is skipped untouched; otherwise one execute_subtask step runs with
the given external outcomes and its fields are copied back. The node never
reads a query's cache_results and never calls apply_expert_answer. -/
def worker_execute_worker (w : WorkerState) (llm_response : String)
    (parsed : ParsedResponse) (exec_result : SandboxResult)
    (preview_urls : List (Nat × String)) : WorkerState :=
  if w.completed = false ∧ w.stuck = false then
    execute_subtask w llm_response parsed exec_result preview_urls
  else w

/-! ## Event bus (api/events.py) -/

/-- An event on the bus; only the type field steers control flow. -/
structure BusEvent where
  etype : String
  payload : Nat := 0
deriving DecidableEq, Repr

/-- Yield events until (and including) the first session_done event. -/
def takeThroughDone : List BusEvent → List BusEvent
  | [] => []
  | e :: t => if e.etype = "session_done" then [e] else e :: takeThroughDone t

/-- Whether a session_done event occurs in the list. -/
def containsDone (l : List BusEvent) : Bool :=
  l.any (fun e => e.etype == "session_done")

/-- EventBus.subscribe for the schedule in which `buffered` is the replay
buffer at registration time, `duringReplay` are the events emitted while
the snapshot is being replayed, and `afterDrain` are the events emitted
after the catch-up drain. The queue is registered before the snapshot is
taken, so it holds exactly `duringReplay` when the drain runs; the drain
discards the first len(buffered) queued events as presumed duplicates. -/
def subscribe_stream (buffered duringReplay afterDrain : List BusEvent) : List BusEvent :=
  let r1 := takeThroughDone buffered
  if containsDone buffered then r1
  else
    let drained := duringReplay.drop buffered.length
    let r2 := takeThroughDone drained
    if containsDone drained then r1 ++ r2
    else r1 ++ r2 ++ takeThroughDone afterDrain

/-- Modelled from the spec: the event sequence a subscriber must observe —
the full buffer snapshot followed by every event emitted afterwards in
order, truncated at session_done, with no duplicates and no gaps. -/
def spec_subscribe_stream (buffered duringReplay afterDrain : List BusEvent) :
    List BusEvent :=
  takeThroughDone (buffered ++ duringReplay ++ afterDrain)

/-! ## Theorems -/

/-- C5, counterexample: with the default budget, a workers spend of 25 USD
exceeds 70 percent of the 30 USD worker cap, yet check_budget answers
allow ("OK"), not warn. -/
theorem C5_counterexample :
    ({ spent_workers := 25 } : CostTracker).spent_workers
        > (7/10) * ({} : BudgetConfig).worker_cost_limit
      ∧ check_budget {} { spent_workers := 25 }
        = (true, "OK", ({} : BudgetConfig).total_budget_usd - 25) := by
  constructor
  · norm_num
  · norm_num [check_budget]

/-- C5, amended: check_budget denies exactly when total spend exceeds the
total budget or the expert spend exceeds the expert cap; it warns exactly
when, not denying, the workers spend exceeds the full worker cap or the
remaining budget is below the buffer; and it allows otherwise. -/
theorem C5_check_budget_decision (b : BudgetConfig) (t : CostTracker) :
    ((check_budget b t).1 = false ↔
      t.spent_workers + t.spent_expert + t.spent_browserbase + t.spent_embeddings
          + t.spent_redis > b.total_budget_usd
        ∨ t.spent_expert > b.expert_cost_limit)
    ∧ ((check_budget b t).1 = true ∧ (check_budget b t).2.1 ≠ "OK" ↔
      ¬(t.spent_workers + t.spent_expert + t.spent_browserbase + t.spent_embeddings
          + t.spent_redis > b.total_budget_usd
        ∨ t.spent_expert > b.expert_cost_limit)
      ∧ (t.spent_workers > b.worker_cost_limit
        ∨ b.total_budget_usd - (t.spent_workers + t.spent_expert + t.spent_browserbase
            + t.spent_embeddings + t.spent_redis) < b.buffer))
    ∧ ((check_budget b t).2.1 = "OK" ↔
      ¬(t.spent_workers + t.spent_expert + t.spent_browserbase + t.spent_embeddings
          + t.spent_redis > b.total_budget_usd
        ∨ t.spent_expert > b.expert_cost_limit)
      ∧ ¬(t.spent_workers > b.worker_cost_limit
        ∨ b.total_budget_usd - (t.spent_workers + t.spent_expert + t.spent_browserbase
            + t.spent_embeddings + t.spent_redis) < b.buffer)) := by
  by_cases h1 : t.spent_workers + t.spent_expert + t.spent_browserbase
      + t.spent_embeddings + t.spent_redis > b.total_budget_usd <;>
  by_cases h2 : t.spent_expert > b.expert_cost_limit <;>
  by_cases h3 : t.spent_workers > b.worker_cost_limit <;>
  by_cases h4 : b.total_budget_usd - (t.spent_workers + t.spent_expert
      + t.spent_browserbase + t.spent_embeddings + t.spent_redis) < b.buffer <;>
  simp [check_budget, h1, h2, h3, h4]

/-- C6: should_escalate returns the urgency
0.30·time_stuck + 0.25·error_loop + 0.20·low_confidence + 0.15·repetition
+ 0.10·dead_end over 0/1 signal indicators, and escalates if and only if
that urgency exceeds 0.5, or both time_stuck and error_loop hold, or
dead_end holds. -/
theorem C6_arbiter_urgency_and_decision (w : WorkerState) :
    (should_escalate w).2.2 =
      (3/10) * signalValue (decide (w.minutes_without_progress > 5))
      + (1/4) * signalValue (decide (w.recent_errors.length > 3))
      + (1/5) * signalValue (decide (w.llm_confidence < 3/5))
      + (3/20) * signalValue (detect_repetition w)
      + (1/10) * signalValue (detect_dead_end w)
    ∧ ((should_escalate w).1 = true ↔
      ((should_escalate w).2.2 > 1/2
        ∨ (w.minutes_without_progress > 5 ∧ w.recent_errors.length > 3)
        ∨ detect_dead_end w = true)) := by
  constructor
  · simp only [should_escalate]
    ring
  · simp only [should_escalate, Bool.or_eq_true, Bool.and_eq_true, decide_eq_true_eq]
    exact or_assoc

/-- A concrete non-completed worker with exactly 3 recent errors. -/
def threeErrorWorker : WorkerState :=
  { worker_id := "junior", recent_errors := ["e1", "e2", "e3"] }

/-- C4, counterexample: a non-completed worker with zero minutes without
progress and exactly 3 recent errors is marked stuck by check_progress. -/
theorem C4_counterexample :
    threeErrorWorker.completed = false
    ∧ threeErrorWorker.minutes_without_progress < 5
    ∧ threeErrorWorker.recent_errors.length = 3
    ∧ ((check_progress_node [threeErrorWorker]).1.map (fun w => w.stuck)) = [true] := by
  refine ⟨rfl, by norm_num [threeErrorWorker], rfl, ?_⟩
  norm_num [threeErrorWorker, check_progress_node, mark_stuck]

/-- C4, amended: at check_progress a non-completed, not-yet-stuck worker
below the 5-minute threshold is marked stuck exactly when it has 3 or more
recent errors (so 2 errors leave it running and 3 or 4 mark it stuck). -/
theorem C4_stuck_error_threshold (w : WorkerState) (hc : w.completed = false)
    (hs : w.stuck = false) (hm : w.minutes_without_progress < 5) :
    ((check_progress_node [w]).1.map (fun x => x.stuck) = [true]
      ↔ 3 ≤ w.recent_errors.length) := by
  have hm5 : ¬ w.minutes_without_progress ≥ 5 := not_le.mpr hm
  simp only [check_progress_node, List.all_cons, List.all_nil, hc, Bool.false_and,
    List.map_cons, List.map_nil, mark_stuck, hs, and_self, if_true]
  split_ifs with h1 h2 h3 <;> simp_all

/-- C4 witness: a concrete worker with exactly 3 recent errors satisfies the
hypotheses and is marked stuck. -/
theorem C4_stuck_error_threshold_witness :
    ((check_progress_node [threeErrorWorker]).1.map (fun x => x.stuck) = [true]) :=
  (C4_stuck_error_threshold threeErrorWorker rfl rfl
    (by norm_num [threeErrorWorker])).mpr (by decide)

/-- A query flagged cache_hit whose single cached result scores exactly 0.7. -/
def boundaryQuery : ExpertQueryRec :=
  { cache_hit := true, cache_results := [{ relevance_score := 7/10 }] }

/-- A query flagged cache_hit whose single cached result scores 0.8. -/
def strongHitQuery : ExpertQueryRec :=
  { cache_hit := true, cache_results := [{ relevance_score := 4/5 }] }

/-- A concrete escalated worker on the cache-hit edge: flagged stuck (set at
check_progress; arbiter_node clears stuck only when it does not escalate,
and neither hybrid_search_node nor the router touches workers) with a
pending subtask and an empty conversation and action history. -/
def c2worker : WorkerState :=
  { worker_id := "junior", subtask := "fix auth", stuck := true }

/-- C2, counterexample, both divergences at concrete inputs. First, a
last-appended query flagged cache_hit whose top cached result has
relevance_score exactly 0.7 (at least 0.7, as the claim requires) is routed
to human_review, not worker_execute. Second, when the route is
worker_execute (top score 0.8), the escalated worker — still flagged
stuck — is skipped untouched by worker_execute, so its conversation and
action history stay empty: no cached answer is injected as guidance,
whereas an actual guidance injection (apply_expert_answer, run only on the
expert path) appends an expert_guidance action. -/
theorem C2_counterexample :
    ((boundaryQuery.cache_results.map (fun r => r.relevance_score) = [7/10]
      ∧ ((7:ℚ)/10) ≥ 7/10)
      ∧ search_route_target (route_after_search [boundaryQuery])
        = Phase.human_review)
    ∧ (search_route_target (route_after_search [strongHitQuery])
        = Phase.worker_execute
      ∧ worker_execute_worker c2worker ("resp")
          { thought := "t", code := "c", confidence := 1/2 }
          { output := "o", success := true } [] = c2worker
      ∧ (worker_execute_worker c2worker ("resp")
          { thought := "t", code := "c", confidence := 1/2 }
          { output := "o", success := true } []).action_history.map
          (fun a => a.action_type) = []
      ∧ (apply_expert_answer c2worker ("cached answer") ("resp")
          { thought := "t", code := "c", confidence := 1/2 }
          { output := "o", success := true } []).action_history.map
          (fun a => a.action_type) ≠ []) := by
  refine ⟨⟨⟨rfl, le_refl _⟩, ?_⟩, ?_, rfl, rfl, ?_⟩
  · norm_num [boundaryQuery, route_after_search, search_route_target]
  · norm_num [strongHitQuery, route_after_search, search_route_target]
  · decide

/-- C2, amended: after hybrid_search the session routes to worker_execute
exactly when the last-appended query is flagged cache_hit and its top
cached result's fused relevance_score strictly exceeds 0.7; otherwise
(score at most 0.7, no results, or no cache_hit flag) it routes to
human_review. On the cache-hit route no cached answer is injected as
guidance: a worker still flagged stuck is left untouched by
worker_execute, whatever the external step outcomes. -/
theorem C2_route_threshold (qs : List ExpertQueryRec) (q : ExpertQueryRec)
    (h : qs.getLast? = some q) :
    (search_route_target (route_after_search qs) = Phase.worker_execute
      ↔ q.cache_hit = true
        ∧ ∃ r rest, q.cache_results = r :: rest ∧ r.relevance_score > 7/10)
    ∧ (search_route_target (route_after_search qs) = Phase.human_review
      ↔ ¬(q.cache_hit = true
        ∧ ∃ r rest, q.cache_results = r :: rest ∧ r.relevance_score > 7/10))
    ∧ (∀ (w : WorkerState) (resp : String) (parsed : ParsedResponse)
        (er : SandboxResult) (urls : List (Nat × String)),
        w.stuck = true → worker_execute_worker w resp parsed er urls = w) := by
  have hskip : ∀ (w : WorkerState) (resp : String) (parsed : ParsedResponse)
      (er : SandboxResult) (urls : List (Nat × String)),
      w.stuck = true → worker_execute_worker w resp parsed er urls = w := by
    intro w resp parsed er urls hw
    simp [worker_execute_worker, hw]
  refine ⟨?_, ?_, hskip⟩
  all_goals
    unfold route_after_search
    rw [h]
    rcases q with ⟨qq, wid, ch, crs⟩
    cases ch with
    | false => simp [search_route_target]
    | true =>
      cases crs with
      | nil => simp [search_route_target]
      | cons r rest =>
        by_cases hr : r.relevance_score > 7/10 <;>
          simp [hr, search_route_target]

/-- C2 witness: with a single query flagged cache_hit whose top result
scores 0.8, the route goes to worker_execute, and the concrete stuck
worker on that edge passes through worker_execute unchanged. -/
theorem C2_route_threshold_witness :
    search_route_target (route_after_search [strongHitQuery]) = Phase.worker_execute
    ∧ worker_execute_worker c2worker ("resp")
        { thought := "t", code := "c", confidence := 1/2 }
        { output := "o", success := true } [] = c2worker :=
  ⟨(C2_route_threshold [strongHitQuery] strongHitQuery rfl).1.mpr
      ⟨rfl, { relevance_score := 4/5 }, [], rfl, by norm_num⟩,
    (C2_route_threshold [strongHitQuery] strongHitQuery rfl).2.2 c2worker ("resp")
      { thought := "t", code := "c", confidence := 1/2 }
      { output := "o", success := true } [] rfl⟩

/-- C9: if both the vector search and the keyword search fail (backend
unavailable), HybridKnowledgeBase.search returns an empty result list and
zero embedding cost, for every query, document store and top_k. -/
theorem C9_search_backend_failure (query e1 e2 : String)
    (fetch_doc : String → Option CachedDoc) (top_k : Nat) :
    search query (Except.error e1) (Except.error e2) fetch_doc top_k = ([], 0) := by
  unfold search
  split_ifs with h
  · rfl
  · simp [wrapped_backend_call, rerank_fusion, fused_scores, rrf_pass, sort_desc,
      get_cost_per_embedding]

/-- C1: evaluation of the event bus at a failing interleaving. With one
buffered event at subscription time and one event emitted while the
snapshot is replayed, the subscriber observes only the buffered event: the
drain discards the live event as a presumed duplicate of the snapshot,
though the queue was registered after the snapshot events were emitted and
holds no duplicates. The spec-mandated sequence contains both events. -/
theorem C1_subscribe_drops_replay_era_event :
    subscribe_stream [{ etype := "thought", payload := 1 }]
        [{ etype := "thought", payload := 2 }] []
      = [{ etype := "thought", payload := 1 }]
    ∧ spec_subscribe_stream [{ etype := "thought", payload := 1 }]
        [{ etype := "thought", payload := 2 }] []
      = [{ etype := "thought", payload := 1 }, { etype := "thought", payload := 2 }]
    ∧ subscribe_stream [{ etype := "thought", payload := 1 }]
        [{ etype := "thought", payload := 2 }] []
      ≠ spec_subscribe_stream [{ etype := "thought", payload := 1 }]
        [{ etype := "thought", payload := 2 }] [] := by
  decide

/-- C8, counterexample: a worker with an empty action history (no action has
already occurred before this step) that submits code reported successful is
nevertheless marked completed: the guard counts the llm_plan and
code_execution actions appended by the very same step. -/
theorem C8_counterexample :
    (({ worker_id := "junior" } : WorkerState).action_history.length = 0)
    ∧ (execute_subtask { worker_id := "junior" } "resp"
        { thought := "t", code := "x=1", confidence := 1/2 }
        { output := "ok", success := true } []).completed = true := by
  decide

/-- C8, amended: on a code submission the sandbox reports successful the
worker is always marked completed (the at-least-one-action guard is
evaluated after this step's llm_plan and code_execution actions are
appended, so it always holds) with output = {code, output, thought}; on a
failed submission the error output is pushed onto recent_errors keeping
only the last 5, and completed/output are unchanged. -/
theorem C8_execute_subtask_outcome (s : WorkerState) (resp : String)
    (parsed : ParsedResponse) (er : SandboxResult) (urls : List (Nat × String))
    (hcode : parsed.code ≠ "") :
    (er.success = true →
      (execute_subtask s resp parsed er urls).completed = true
      ∧ (execute_subtask s resp parsed er urls).output
          = some { code := parsed.code, output := er.output,
                   thought := parsed.thought, preview_urls := urls })
    ∧ (er.success = false →
      (execute_subtask s resp parsed er urls).recent_errors
          = lastN 5 (s.recent_errors ++ [er.output.take 500])
      ∧ (execute_subtask s resp parsed er urls).completed = s.completed
      ∧ (execute_subtask s resp parsed er urls).output = s.output) := by
  rcases er with ⟨out, success⟩
  cases success <;>
    simp [execute_subtask, hcode, List.length_append]

/-- C8 witness: a concrete successful submission completes the worker with
the expected output record. -/
theorem C8_execute_subtask_outcome_witness :
    (execute_subtask { worker_id := "junior" } "resp"
        { thought := "t", code := "x=1", confidence := 1/2 }
        { output := "ok", success := true } []).completed = true
    ∧ (execute_subtask { worker_id := "junior" } "resp"
        { thought := "t", code := "x=1", confidence := 1/2 }
        { output := "ok", success := true } []).output
      = some { code := "x=1", output := "ok", thought := "t", preview_urls := [] } :=
  (C8_execute_subtask_outcome { worker_id := "junior" } "resp"
    { thought := "t", code := "x=1", confidence := 1/2 }
    { output := "ok", success := true } [] (by decide)).1 rfl

/-- C7, counterexample: one track_llm_call with agent_type "redis" (to which
no branch of the sum update applies) appends a 1 USD ledger entry while the
tracker's spent_redis stays 0: the per-category invariant fails as stated
over all cost-recording operations. -/
theorem C7_counterexample :
    categorySumEntries (runCostOps [CostOp.track ("redis") ("unknown-model") 1000000 0])
        ("redis") = 1
    ∧ (runCostOps [CostOp.track ("redis") ("unknown-model") 1000000 0]).spent_redis = 0
    ∧ categorySumEntries (runCostOps [CostOp.track ("redis") ("unknown-model") 1000000 0])
        ("redis")
      ≠ (runCostOps [CostOp.track ("redis") ("unknown-model") 1000000 0]).spent_redis := by
  refine ⟨?_, rfl, ?_⟩ <;>
    simp [runCostOps, applyCostOp, track_llm_call, calculate_cost, modelRates,
      MODEL_COSTS, categorySumEntries, List.find?]

/-- The invariant relating ledger entries to the four tracked category sums. -/
def trackedSumsInvariant (t : CostTracker) : Prop :=
  categorySumEntries t ("workers") = t.spent_workers
  ∧ categorySumEntries t ("expert") = t.spent_expert
  ∧ categorySumEntries t ("browserbase") = t.spent_browserbase
  ∧ categorySumEntries t ("embeddings") = t.spent_embeddings

theorem applyCostOp_preserves_trackedSums (t : CostTracker) (op : CostOp)
    (ht : trackedSumsInvariant t) : trackedSumsInvariant (applyCostOp t op) := by
  obtain ⟨hw, he, hb, hm⟩ := ht
  cases op with
  | hybridSearchEmbedCost =>
    simpa [applyCostOp, hybrid_search_cost_update, get_cost_per_embedding,
      trackedSumsInvariant, categorySumEntries] using ⟨hw, he, hb, hm⟩
  | track a m ti to1 =>
    by_cases h1 : a = "workers" <;>
    by_cases h2 : a = "expert" <;>
    by_cases h3 : a = "browserbase" <;>
    by_cases h4 : a = "embeddings" <;>
      simp_all [applyCostOp, track_llm_call, trackedSumsInvariant, categorySumEntries,
        List.filter_append, List.map_append, List.sum_append]

theorem foldl_applyCostOp_preserves (ops : List CostOp) :
    ∀ t : CostTracker, trackedSumsInvariant t →
      trackedSumsInvariant (ops.foldl applyCostOp t) := by
  induction ops with
  | nil => intro t ht; simpa using ht
  | cons op rest ih =>
    intro t ht
    simpa [List.foldl_cons] using ih _ (applyCostOp_preserves_trackedSums t op ht)

/-- C7, amended: after any sequence of cost-recording operations (controller
track_llm_call calls with arbitrary agent types, and hybrid_search_node's
embedding-cost update, which adds the zero cost the local embedding service
reports), the ledger-entry sums for the four handled categories — workers,
expert, browserbase, embeddings — equal the tracker's running sums; the
redis category sum is updated by no operation. -/
theorem C7_tracked_category_sums (ops : List CostOp) :
    categorySumEntries (runCostOps ops) ("workers") = (runCostOps ops).spent_workers
    ∧ categorySumEntries (runCostOps ops) ("expert") = (runCostOps ops).spent_expert
    ∧ categorySumEntries (runCostOps ops) ("browserbase")
        = (runCostOps ops).spent_browserbase
    ∧ categorySumEntries (runCostOps ops) ("embeddings")
        = (runCostOps ops).spent_embeddings :=
  foldl_applyCostOp_preserves ops {} (by refine ⟨rfl, rfl, rfl, rfl⟩)

/-! ## Reciprocal rank fusion: supporting lemmas -/

/-- Value stored under a key in the fused-scores dict (0 when absent). -/
def score_of : List (String × ℚ) → String → ℚ
  | [], _ => 0
  | (k0, v0) :: rest, key => if k0 = key then v0 else score_of rest key

/-- Whether the fused-scores dict holds the key. -/
def has_key : List (String × ℚ) → String → Bool
  | [], _ => false
  | (k0, _) :: rest, key => if k0 = key then true else has_key rest key

/-- Total reciprocal-rank contribution of one hit list to one id, the ranks
starting at the given value. -/
def rank_contrib (k : ℚ) : List SearchHit → Nat → String → ℚ
  | [], _, _ => 0
  | h :: t, rank, key =>
    (if h.id = key then 1 / (k + (rank : ℚ)) else 0) + rank_contrib k t (rank + 1) key

theorem score_of_dict_upsert (d : List (String × ℚ)) (key j : String) (inc : ℚ) :
    score_of (dict_upsert d key inc) j
      = if j = key then score_of d j + inc else score_of d j := by
  induction d with
  | nil =>
    by_cases h : j = key <;> simp_all [dict_upsert, score_of, eq_comm]
  | cons p rest ih =>
    obtain ⟨k0, v0⟩ := p
    by_cases h0 : k0 = key <;> by_cases hj : k0 = j <;>
      simp_all [dict_upsert, score_of, eq_comm]

theorem has_key_dict_upsert (d : List (String × ℚ)) (key j : String) (inc : ℚ) :
    has_key (dict_upsert d key inc) j = (has_key d j || decide (j = key)) := by
  induction d with
  | nil =>
    simp only [dict_upsert, has_key, Bool.false_or]
    by_cases h : key = j
    · subst h; simp
    · have h2 : ¬ j = key := fun hh => h hh.symm
      simp [h, h2]
  | cons p rest ih =>
    obtain ⟨k0, v0⟩ := p
    by_cases h0 : k0 = key
    · subst h0
      simp only [dict_upsert, if_pos rfl, has_key]
      by_cases hj : k0 = j
      · simp [hj]
      · have h2 : ¬ j = k0 := fun hh => hj hh.symm
        simp [hj, h2]
    · simp only [dict_upsert, if_neg h0, has_key]
      by_cases hj : k0 = j
      · simp [hj]
      · simp [hj, ih]

theorem has_key_iff_mem_keys (d : List (String × ℚ)) (j : String) :
    has_key d j = true ↔ j ∈ d.map Prod.fst := by
  induction d with
  | nil => simp [has_key]
  | cons p rest ih =>
    obtain ⟨k0, v0⟩ := p
    simp only [has_key, List.map_cons, List.mem_cons]
    by_cases h0 : k0 = j
    · simp [h0]
    · have h2 : ¬ j = k0 := fun hh => h0 hh.symm
      simp [h0, h2, ih]

theorem nodup_keys_dict_upsert (d : List (String × ℚ)) (key : String) (inc : ℚ)
    (h : (d.map Prod.fst).Nodup) : ((dict_upsert d key inc).map Prod.fst).Nodup := by
  induction d with
  | nil => simp [dict_upsert]
  | cons p rest ih =>
    obtain ⟨k0, v0⟩ := p
    simp only [List.map_cons, List.nodup_cons] at h
    by_cases h0 : k0 = key
    · simpa [dict_upsert, h0] using h
    · simp only [dict_upsert, if_neg h0, List.map_cons]
      refine List.nodup_cons.mpr ⟨?_, ih h.2⟩
      intro hmem
      rcases (has_key_iff_mem_keys _ _).mpr hmem with h1
      rw [has_key_dict_upsert] at h1
      rcases Bool.or_eq_true_iff.mp h1 with h2 | h2
      · exact h.1 ((has_key_iff_mem_keys _ _).mp h2)
      · exact h0 (of_decide_eq_true h2)

theorem score_of_rrf_pass (k : ℚ) (hits : List SearchHit) :
    ∀ (d : List (String × ℚ)) (r : Nat) (j : String),
      score_of (rrf_pass k d hits r) j = score_of d j + rank_contrib k hits r j := by
  induction hits with
  | nil => intro d r j; simp [rrf_pass, rank_contrib]
  | cons h t ih =>
    intro d r j
    simp only [rrf_pass, rank_contrib]
    rw [ih, score_of_dict_upsert]
    by_cases hj : j = h.id <;> (simp [hj, eq_comm]; try ring)

theorem has_key_rrf_pass (k : ℚ) (hits : List SearchHit) :
    ∀ (d : List (String × ℚ)) (r : Nat) (j : String),
      has_key (rrf_pass k d hits r) j
        = (has_key d j || hits.any (fun h => h.id == j)) := by
  induction hits with
  | nil => intro d r j; simp [rrf_pass]
  | cons h t ih =>
    intro d r j
    simp only [rrf_pass, List.any_cons]
    rw [ih, has_key_dict_upsert]
    by_cases hj : j = h.id
    · subst hj
      simp [Bool.or_comm, Bool.or_assoc, Bool.or_left_comm]
    · have h2 : (h.id == j) = false := by
        simp only [beq_eq_false_iff_ne, ne_eq]
        exact fun hh => hj hh.symm
      have h3 : decide (j = h.id) = false := decide_eq_false hj
      rw [h2, h3]
      simp [Bool.or_assoc]

theorem nodup_keys_rrf_pass (k : ℚ) (hits : List SearchHit) :
    ∀ (d : List (String × ℚ)) (r : Nat), (d.map Prod.fst).Nodup →
      ((rrf_pass k d hits r).map Prod.fst).Nodup := by
  induction hits with
  | nil => intro d r h; simpa [rrf_pass] using h
  | cons h t ih =>
    intro d r hd
    exact ih _ _ (nodup_keys_dict_upsert d h.id _ hd)

theorem mem_iff_has_key_score (d : List (String × ℚ)) (j : String) (s : ℚ)
    (hd : (d.map Prod.fst).Nodup) :
    (j, s) ∈ d ↔ has_key d j = true ∧ score_of d j = s := by
  induction d with
  | nil => simp [has_key]
  | cons p rest ih =>
    obtain ⟨k0, v0⟩ := p
    simp only [List.map_cons, List.nodup_cons] at hd
    by_cases h0 : k0 = j
    · subst h0
      simp only [has_key, score_of, if_pos rfl, List.mem_cons, Prod.mk.injEq, true_and]
      constructor
      · rintro (⟨rfl⟩ | hmem)
        · exact ⟨rfl, rfl⟩
        · exact absurd (List.mem_map_of_mem Prod.fst hmem) hd.1
      · rintro ⟨-, rfl⟩
        exact Or.inl rfl
    · simp only [has_key, score_of, if_neg h0, List.mem_cons, Prod.mk.injEq]
      rw [ih hd.2]
      constructor
      · rintro (⟨rfl, rfl⟩ | hmem)
        · exact absurd rfl h0
        · exact hmem
      · exact fun hmem => Or.inr hmem

theorem fused_scores_score (v w : List SearchHit) (k : ℚ) (j : String) :
    score_of (fused_scores v w k) j = rank_contrib k v 0 j + rank_contrib k w 0 j := by
  simp [fused_scores, score_of_rrf_pass, score_of]

theorem fused_scores_has_key (v w : List SearchHit) (k : ℚ) (j : String) :
    has_key (fused_scores v w k) j
      = (v.any (fun h => h.id == j) || w.any (fun h => h.id == j)) := by
  simp [fused_scores, has_key_rrf_pass, has_key, Bool.or_comm]

theorem fused_scores_nodup_keys (v w : List SearchHit) (k : ℚ) :
    ((fused_scores v w k).map Prod.fst).Nodup :=
  nodup_keys_rrf_pass k w _ 0 (nodup_keys_rrf_pass k v [] 0 (by simp))

theorem fused_scores_swap_perm (v w : List SearchHit) (k : ℚ) :
    List.Perm (fused_scores v w k) (fused_scores w v k) := by
  refine (List.perm_ext_iff_of_nodup
    (List.Nodup.of_map Prod.fst (fused_scores_nodup_keys v w k))
    (List.Nodup.of_map Prod.fst (fused_scores_nodup_keys w v k))).mpr ?_
  rintro ⟨j, s⟩
  rw [mem_iff_has_key_score _ _ _ (fused_scores_nodup_keys v w k),
    mem_iff_has_key_score _ _ _ (fused_scores_nodup_keys w v k),
    fused_scores_score, fused_scores_score, fused_scores_has_key,
    fused_scores_has_key, Bool.or_comm, add_comm]

theorem insert_desc_perm (x : String × ℚ) (l : List (String × ℚ)) :
    List.Perm (insert_desc x l) (x :: l) := by
  induction l with
  | nil => simp [insert_desc]
  | cons y ys ih =>
    by_cases h : y.2 < x.2
    · simp [insert_desc, h]
    · simp only [insert_desc, if_neg h]
      exact (ih.cons y).trans (List.Perm.swap x y ys)

theorem sort_desc_perm (l : List (String × ℚ)) : List.Perm (sort_desc l) l := by
  suffices h : ∀ acc : List (String × ℚ),
      List.Perm (l.foldl (fun a x => insert_desc x a) acc) (acc ++ l) by
    simpa using h []
  induction l with
  | nil => intro acc; simp
  | cons x t ih =>
    intro acc
    simp only [List.foldl_cons]
    refine ((ih (insert_desc x acc)).trans ?_)
    refine (((insert_desc_perm x acc).append_right t).trans ?_)
    exact List.perm_middle.symm

theorem rank_contrib_eq_zero (k : ℚ) (hits : List SearchHit) :
    ∀ (r : Nat) (j : String), (∀ h ∈ hits, h.id ≠ j) → rank_contrib k hits r j = 0 := by
  induction hits with
  | nil => intro r j _; rfl
  | cons h t ih =>
    intro r j hni
    simp only [rank_contrib, if_neg (hni h (List.mem_cons_self h t))]
    rw [ih (r + 1) j (fun x hx => hni x (List.mem_cons_of_mem h hx))]
    ring

theorem rank_contrib_le (k : ℚ) (hk : 0 < k) (hits : List SearchHit) :
    ∀ (r : Nat) (j : String), ((hits.map SearchHit.id).Nodup) →
      rank_contrib k hits r j ≤ 1 / (k + (r : ℚ)) := by
  induction hits with
  | nil =>
    intro r j _
    simp only [rank_contrib]
    positivity
  | cons h t ih =>
    intro r j hnd
    simp only [List.map_cons, List.nodup_cons] at hnd
    by_cases hj : h.id = j
    · have ht : rank_contrib k t (r + 1) j = 0 := by
        refine rank_contrib_eq_zero k t (r + 1) j ?_
        intro x hx hxj
        apply hnd.1
        have hxm : x.id ∈ t.map SearchHit.id := List.mem_map_of_mem SearchHit.id hx
        rwa [hxj, ← hj] at hxm
      simp [rank_contrib, hj, ht]
    · have hle : rank_contrib k t (r + 1) j ≤ 1 / (k + ((r + 1 : Nat) : ℚ)) :=
        ih (r + 1) j hnd.2
      have hmono : (1 : ℚ) / (k + ((r + 1 : Nat) : ℚ)) ≤ 1 / (k + (r : ℚ)) := by
        refine one_div_le_one_div_of_le (by positivity) ?_
        push_cast
        linarith
      simp only [rank_contrib, if_neg hj, zero_add]
      exact hle.trans hmono

theorem route_after_search_eq_cache_hit_iff (qs : List ExpertQueryRec)
    (q : ExpertQueryRec) (h : qs.getLast? = some q) :
    (route_after_search qs = SearchRoute.cache_hit
      ↔ q.cache_hit = true
        ∧ ∃ r rest, q.cache_results = r :: rest ∧ r.relevance_score > 7/10) := by
  unfold route_after_search
  rw [h]
  rcases q with ⟨qq, wid, ch, crs⟩
  cases ch with
  | false => simp
  | true =>
    cases crs with
    | nil => simp
    | cons r rest =>
      by_cases hr : r.relevance_score > 7/10 <;> simp [hr]

/-! ## C10 and C3 -/

/-- A one-element vector hit list. -/
def hitA : SearchHit := { id := "a" }

/-- A one-element keyword hit list. -/
def hitB : SearchHit := { id := "b" }

/-- C10, counterexample: for the equal-length singleton hit lists for ids
"a" and "b" the fused scores tie at 1/60; the stable descending sort then
keeps dict insertion order, which differs between the two argument orders,
so the fused rankings differ. -/
theorem C10_counterexample :
    ([hitA].length = [hitB].length)
    ∧ rerank_fusion [hitA] [hitB] 60 ≠ rerank_fusion [hitB] [hitA] 60 := by
  refine ⟨rfl, ?_⟩
  simp [rerank_fusion, fused_scores, rrf_pass, dict_upsert, sort_desc,
    insert_desc, hitA, hitB]

/-- C10, amended: for hit lists of equal length, swapping the two inputs of
rerank_fusion yields the same fused scores — the two rankings are
permutations of each other; only the relative order of tied entries can
differ. -/
theorem C10_rrf_swap_perm (v w : List SearchHit) (_h : v.length = w.length) :
    List.Perm (rerank_fusion v w 60) (rerank_fusion w v 60) := by
  unfold rerank_fusion
  exact ((sort_desc_perm _).trans (fused_scores_swap_perm v w 60)).trans
    (sort_desc_perm _).symm

/-- C10 witness: the singleton lists have equal length and their two fused
rankings are permutations of each other. -/
theorem C10_rrf_swap_perm_witness :
    ([hitA].length = [hitB].length)
    ∧ List.Perm (rerank_fusion [hitA] [hitB] 60) (rerank_fusion [hitB] [hitA] 60) :=
  ⟨rfl, C10_rrf_swap_perm [hitA] [hitB] rfl⟩

/-- C3: when each document id occurs at most once per input list, every
fused score of rerank_fusion with k = 60 is at most 1/60 + 1/60; hence the
relevance_score search attaches never exceeds 0.7 and the cache_hit route
out of hybrid_search is unreachable for cache results produced by search. -/
theorem C3_rrf_bound_cache_hit_unreachable (v w : List SearchHit)
    (hv : (v.map SearchHit.id).Nodup) (hw : (w.map SearchHit.id).Nodup) :
    (∀ p ∈ rerank_fusion v w 60, p.2 ≤ 1/60 + 1/60)
    ∧ ∀ (query : String) (fetch_doc : String → Option CachedDoc) (top_k : Nat)
        (qs : List ExpertQueryRec) (q : ExpertQueryRec),
        qs.getLast? = some q →
        q.cache_results = (search query (Except.ok v) (Except.ok w) fetch_doc top_k).1 →
        route_after_search qs ≠ SearchRoute.cache_hit := by
  have hbound : ∀ p ∈ rerank_fusion v w 60, p.2 ≤ 1/60 + 1/60 := by
    rintro ⟨j, s⟩ hp
    have hmem : (j, s) ∈ fused_scores v w 60 := (sort_desc_perm _).mem_iff.mp hp
    have h1 := (mem_iff_has_key_score _ _ _ (fused_scores_nodup_keys v w 60)).mp hmem
    have h2 : s = rank_contrib 60 v 0 j + rank_contrib 60 w 0 j := by
      rw [← h1.2, fused_scores_score]
    have hv1 : rank_contrib 60 v 0 j ≤ 1 / (60 + ((0 : Nat) : ℚ)) :=
      rank_contrib_le 60 (by norm_num) v 0 j hv
    have hw1 : rank_contrib 60 w 0 j ≤ 1 / (60 + ((0 : Nat) : ℚ)) :=
      rank_contrib_le 60 (by norm_num) w 0 j hw
    rw [h2]
    push_cast at hv1 hw1
    norm_num at hv1 hw1 ⊢
    linarith
  refine ⟨hbound, ?_⟩
  intro query fetch_doc top_k qs q hlast hq hroute
  rw [route_after_search_eq_cache_hit_iff qs q hlast] at hroute
  obtain ⟨hch, r, rest, hcr, hscore⟩ := hroute
  have hrmem : r ∈ (search query (Except.ok v) (Except.ok w) fetch_doc top_k).1 := by
    rw [← hq, hcr]
    exact List.mem_cons_self r rest
  unfold search at hrmem
  by_cases hq0 : query.trim = ""
  · rw [if_pos hq0] at hrmem
    simp at hrmem
  · rw [if_neg hq0] at hrmem
    simp only [wrapped_backend_call, List.mem_filterMap] at hrmem
    obtain ⟨p, hp1, hp2⟩ := hrmem
    have hple : p.2 ≤ 1/60 + 1/60 := hbound p (List.mem_of_mem_take hp1)
    have hrscore : r.relevance_score = p.2 := by
      rcases hfetch : fetch_doc p.1 with _ | d
      · rw [hfetch] at hp2
        simp at hp2
      · rw [hfetch] at hp2
        simp at hp2
        rw [← hp2]
        rfl
    rw [hrscore] at hscore
    have hcontra : (7 : ℚ)/10 < 1/60 + 1/60 := lt_of_lt_of_le hscore hple
    norm_num at hcontra

/-- Concrete document store returning a bare document for every id. -/
def fetchAnyDoc (id : String) : Option CachedDoc := some { id := id }

/-- C3 witness: with concrete nodup singleton hit lists, a query whose
cache_results come from search is never routed to cache_hit. -/
theorem C3_rrf_bound_cache_hit_unreachable_witness :
    route_after_search
        [{ cache_hit := true,
           cache_results := (search ("q") (Except.ok [hitA]) (Except.ok [hitB])
             fetchAnyDoc 3).1 }]
      ≠ SearchRoute.cache_hit :=
  (C3_rrf_bound_cache_hit_unreachable [hitA] [hitB] (by simp [hitA, hitB])
    (by simp [hitA, hitB])).2 ("q") fetchAnyDoc 3 _ _ rfl rfl

end PiedPiper
